import Mathlib

/-!
Verification of the board / chain-detection engine and the bot decision heuristic of
the tic-tac-toe program in `src/main.cpp`. The C++ classes are shallowly embedded:
`int` becomes `Int` (no arithmetic here ever overflows a 32-bit int under the stated
hypotheses), `std::string` cells become `String` with `""` encoding an unmarked cell,
the N x N `std::vector` grid becomes a total map `Int → Int → String` (out-of-bounds
cells are never read by the embedded operations, which replicate the source's bounds
checks), and the two sources of randomness (initial turn pick, bot fallback move) are
passed in as explicit parameters.
-/

namespace TicTacToe

/-- The C++ `std::numeric_limits<int>::max()`, the default `maxChain` argument. -/
def INTMAX : Int := 2147483647

/-- Derived record produced by `Board::findConnectedCell` (src/main.cpp:29-37). -/
structure ConnectedCell where
  row : Int
  column : Int
  verticalChain : Nat
  horizontalChain : Nat
  diagonalLeftChain : Nat
  diagonalRightChain : Nat
  totalConnected : Nat
deriving DecidableEq

/-- `Player` (src/main.cpp:66-94); `isBot` records the dynamic type
(`Player` base class vs `Bot` subclass), which only affects `name()`. -/
structure Player where
  number : Int
  marker : String
  score : Int
  lastScore : Int
  isBot : Bool
deriving DecidableEq

/-- `Player::name` / `Bot::name` (src/main.cpp:471, 502). -/
def Player.name (p : Player) : String := if p.isBot then "Bot" else "Player"

/-- `Player::setScore` (src/main.cpp:486-489). -/
def Player.setScore (p : Player) (score : Int) : Player :=
  { p with lastScore := p.score, score := score }

/-- Stand-in value for `std::vector::at` lookups; under the invariants assumed by the
theorems every embedded lookup is in range, as it is in the running program. -/
def dummyPlayer : Player := { number := 0, marker := "", score := 0, lastScore := 0, isBot := false }

/-- Stand-in value for `.at(0)` on a vector of `ConnectedCell`. -/
def dummyCell : ConnectedCell :=
  { row := 0, column := 0, verticalChain := 0, horizontalChain := 0,
    diagonalLeftChain := 0, diagonalRightChain := 0, totalConnected := 0 }

/-- `Board` state (src/main.cpp:119-228). The current turn holder `_playerTurn`
(a `shared_ptr` aliasing an element of `_players`) is modelled as an index into
`players`, `none` standing for `nullptr`. -/
structure Board where
  gridSize : Int
  grid : Int → Int → String
  players : List Player
  playerTurn : Option Nat

/-- `Board::columnByCellNumber` (src/main.cpp:659); C++ `%` on `int` truncates. -/
def columnByCellNumber (N cellNumber : Int) : Int := cellNumber.tmod N

/-- `Board::rowByCellNumber` (src/main.cpp:661); C++ `/` on `int` truncates. -/
def rowByCellNumber (N cellNumber : Int) : Int := cellNumber.tdiv N

/-- `Board::cellNumberByPosition` (src/main.cpp:663). -/
def cellNumberByPosition (N row column : Int) : Int := row * N + column

abbrev inBounds (N row column : Int) : Prop :=
  0 ≤ row ∧ row < N ∧ 0 ≤ column ∧ column < N

/-- The do-while loop of `Board::_countChainByDirection` (src/main.cpp:911-939),
with the accumulated `chain` made explicit. The loop body runs at most
`max 1 maxChain.toNat` times (every continued iteration requires `chain < maxChain`
with `chain` strictly increasing), so fuel `maxChain.toNat + 1` never runs out and
the fuel-exhaustion branch is dead code. -/
def chainGo (N : Int) (g : Int → Int → String) (targetMarker : String)
    (deltaRow deltaColumn maxChain : Int) :
    Nat → Int → Int → Nat → Nat
  | 0, _, _, chain => chain
  | fuel + 1, row, column, chain =>
    let row' := row + deltaRow
    let column' := column + deltaColumn
    if row' < 0 ∨ N ≤ row' ∨ column' < 0 ∨ N ≤ column' ∨ g row' column' ≠ targetMarker then
      chain
    else if (chain : Int) + 1 < maxChain then
      chainGo N g targetMarker deltaRow deltaColumn maxChain fuel row' column' (chain + 1)
    else
      chain + 1

/-- `Board::_countChainByDirection` (src/main.cpp:911-939). -/
def countChainByDirection (N : Int) (g : Int → Int → String)
    (row column deltaRow deltaColumn : Int) (targetMarker : String) (maxChain : Int) : Nat :=
  chainGo N g targetMarker deltaRow deltaColumn maxChain (maxChain.toNat + 1) row column 0

/-- `Board::_countCurrentTopChain` (src/main.cpp:941-943). -/
def countCurrentTopChain (N : Int) (g : Int → Int → String) (row column : Int)
    (targetMarker : String) (maxChain : Int := INTMAX) : Nat :=
  countChainByDirection N g row column (-1) 0 targetMarker maxChain

/-- `Board::_countCurrentBottomChain` (src/main.cpp:945-947). -/
def countCurrentBottomChain (N : Int) (g : Int → Int → String) (row column : Int)
    (targetMarker : String) (maxChain : Int := INTMAX) : Nat :=
  countChainByDirection N g row column 1 0 targetMarker maxChain

/-- `Board::_countCurrentLeftChain` (src/main.cpp:949-951). -/
def countCurrentLeftChain (N : Int) (g : Int → Int → String) (row column : Int)
    (targetMarker : String) (maxChain : Int := INTMAX) : Nat :=
  countChainByDirection N g row column 0 (-1) targetMarker maxChain

/-- `Board::_countCurrentRightChain` (src/main.cpp:953-955). -/
def countCurrentRightChain (N : Int) (g : Int → Int → String) (row column : Int)
    (targetMarker : String) (maxChain : Int := INTMAX) : Nat :=
  countChainByDirection N g row column 0 1 targetMarker maxChain

/-- `Board::_countTopLeftChain` (src/main.cpp:957-959). -/
def countTopLeftChain (N : Int) (g : Int → Int → String) (row column : Int)
    (targetMarker : String) (maxChain : Int := INTMAX) : Nat :=
  countChainByDirection N g row column (-1) (-1) targetMarker maxChain

/-- `Board::_countTopRightChain` (src/main.cpp:961-963). -/
def countTopRightChain (N : Int) (g : Int → Int → String) (row column : Int)
    (targetMarker : String) (maxChain : Int := INTMAX) : Nat :=
  countChainByDirection N g row column (-1) 1 targetMarker maxChain

/-- `Board::_countBottomLeftChain` (src/main.cpp:965-967). -/
def countBottomLeftChain (N : Int) (g : Int → Int → String) (row column : Int)
    (targetMarker : String) (maxChain : Int := INTMAX) : Nat :=
  countChainByDirection N g row column 1 (-1) targetMarker maxChain

/-- `Board::_countBottomRightChain` (src/main.cpp:969-971). -/
def countBottomRightChain (N : Int) (g : Int → Int → String) (row column : Int)
    (targetMarker : String) (maxChain : Int := INTMAX) : Nat :=
  countChainByDirection N g row column 1 1 targetMarker maxChain

/-- `Board::findConnectedCell` (src/main.cpp:680-715). -/
def findConnectedCell (N : Int) (g : Int → Int → String) (row column : Int)
    (targetMarker : String) (maxChain : Int := INTMAX) : ConnectedCell :=
  let verticalChain := countCurrentTopChain N g row column targetMarker maxChain
    + countCurrentBottomChain N g row column targetMarker maxChain
  let total1 := if 2 ≤ verticalChain then verticalChain + 1 else 0
  let horizontalChain := countCurrentLeftChain N g row column targetMarker maxChain
    + countCurrentRightChain N g row column targetMarker maxChain
  let total2 := total1 + (if 2 ≤ horizontalChain then horizontalChain + 1 else 0)
  let diagonalLeftChain := countTopLeftChain N g row column targetMarker maxChain
    + countBottomRightChain N g row column targetMarker maxChain
  let total3 := total2 + (if 2 ≤ diagonalLeftChain then diagonalLeftChain + 1 else 0)
  let diagonalRightChain := countTopRightChain N g row column targetMarker maxChain
    + countBottomLeftChain N g row column targetMarker maxChain
  let total4 := total3 + (if 2 ≤ diagonalRightChain then diagonalRightChain + 1 else 0)
  { row := row
    column := column
    verticalChain := verticalChain
    horizontalChain := horizontalChain
    diagonalLeftChain := diagonalLeftChain
    diagonalRightChain := diagonalRightChain
    totalConnected := total4 }

/-- `Board::findAvailableCellNumbers` (src/main.cpp:665-678): cell numbers of empty
cells in row-major (hence ascending) order, the iteration order of the `std::set`. -/
def findAvailableCellNumbers (b : Board) : List Int :=
  (List.range b.gridSize.toNat).flatMap (fun (row : Nat) =>
    (List.range b.gridSize.toNat).filterMap (fun (column : Nat) =>
      if b.grid (row : Int) (column : Int) = "" then
        some (cellNumberByPosition b.gridSize (row : Int) (column : Int))
      else none))

/-- `Board::markCellByNumber` (src/main.cpp:799-818). -/
def markCellByNumber (b : Board) (cellNumber : Int) (marker : String) : Bool × Board :=
  let x := columnByCellNumber b.gridSize cellNumber
  let y := rowByCellNumber b.gridSize cellNumber
  if x < 0 ∨ b.gridSize ≤ x ∨ y < 0 ∨ b.gridSize ≤ y
      ∨ b.grid y x ≠ "" ∨ b.playerTurn = none then
    (false, b)
  else
    match b.playerTurn with
    | none => (false, b)
    | some i =>
      let g' := fun r c => if r = y ∧ c = x then marker else b.grid r c
      let totalConnected := (findConnectedCell b.gridSize g' y x marker).totalConnected
      let p := b.players.getD i dummyPlayer
      let score := p.score + totalConnected
      (true, { b with grid := g', players := b.players.set i (p.setScore score) })

/-- `Board::togglePlayerTurn` (src/main.cpp:830-845); `randomIndex` stands for the
value drawn from `uniform_int_distribution(0, max(0, players.size() - 1))`, used only
when there is no current turn holder. -/
def togglePlayerTurn (randomIndex : Nat) (b : Board) : Board :=
  let playerTurnIndex : Int :=
    match b.playerTurn with
    | none => -1
    | some i => (b.players.getD i dummyPlayer).number - 1
  let newIndex : Int :=
    if playerTurnIndex = -1 then randomIndex
    else if (b.players.length : Int) ≤ playerTurnIndex + 1 then 0
    else playerTurnIndex + 1
  { b with playerTurn := some newIndex.toNat }

/-- `k` successive calls of `togglePlayerTurn`, the call numbered `j` receiving the
random draw `rs j` (only consumed when no turn holder is set at that call). -/
def toggleIterate (rs : Nat → Nat) (b : Board) : Nat → Board
  | 0 => b
  | k + 1 => togglePlayerTurn (rs k) (toggleIterate rs b k)

/-- The top-player scan of `Board::resultText` (src/main.cpp:774-787). -/
def resultTextLoop : List Player → Option Player → Int → Option Player
  | [], topPlayer, _ => topPlayer
  | p :: rest, topPlayer, topScore =>
    if topScore < p.score then resultTextLoop rest (some p) p.score
    else if p.score = topScore then resultTextLoop rest none topScore
    else resultTextLoop rest topPlayer topScore

/-- The draw message of `Board::resultText` (src/main.cpp:790). -/
def drawText : String := "Game over! The game ends with draw.\n"

/-- The win message of `Board::resultText` (src/main.cpp:794-795). -/
def winText (p : Player) : String :=
  "Game over! " ++ p.name ++ "-" ++ toString p.number ++ " (" ++ p.marker ++ ") has won!\n"

/-- `Board::resultText` (src/main.cpp:774-797). -/
def resultText (b : Board) : String :=
  match resultTextLoop b.players none 0 with
  | none => drawText
  | some p => winText p

/-- The branch condition of `Bot::_compareNextTurn` (src/main.cpp:631-643) under
which the first argument is returned. -/
abbrev nextTurnFavorsFirst (botNumber : Int) (p1 p2 : Player) : Prop :=
  (p1.number < p2.number ∧ p2.number < botNumber)
  ∨ (p2.number < botNumber ∧ botNumber < p1.number)
  ∨ (botNumber < p1.number ∧ p1.number < p2.number)
  ∨ botNumber = p2.number

/-- `Bot::_compareNextTurn` (src/main.cpp:631-643). -/
def compareNextTurn (botNumber : Int) (p1 p2 : Player) : Player :=
  if nextTurnFavorsFirst botNumber p1 p2 then p1 else p2

/-- The strict comparator passed to `std::sort` in `Bot::_rankAvailableCells`
(src/main.cpp:620-627): descending `totalConnected`, ties broken by descending sum
of the four directional chain fields. -/
abbrev rankBefore (a b : ConnectedCell) : Prop :=
  b.totalConnected < a.totalConnected
  ∨ (a.totalConnected = b.totalConnected
      ∧ b.verticalChain + b.horizontalChain + b.diagonalLeftChain + b.diagonalRightChain
        < a.verticalChain + a.horizontalChain + a.diagonalLeftChain + a.diagonalRightChain)

def insertRanked (x : ConnectedCell) : List ConnectedCell → List ConnectedCell
  | [] => [x]
  | y :: ys => if rankBefore x y then x :: y :: ys else y :: insertRanked x ys

/-- Comparator-consistent sort modelling the `std::sort` call (whose order on
comparator-equivalent elements is unspecified). -/
def sortRanked : List ConnectedCell → List ConnectedCell
  | [] => []
  | x :: xs => insertRanked x (sortRanked xs)

/-- `Bot::_rankAvailableCells` (src/main.cpp:604-629). -/
def rankAvailableCells (b : Board) (marker : String) (availableCellNumbers : List Int) :
    List ConnectedCell :=
  sortRanked (availableCellNumbers.map (fun cell =>
    findConnectedCell b.gridSize b.grid (rowByCellNumber b.gridSize cell)
      (columnByCellNumber b.gridSize cell) marker))

/-- The player-to-block search loop of `Bot::requireCellSelection`
(src/main.cpp:514-536): `n` runs from `s = botNumber % totalPlayers`, the scanned
index is `i = n % totalPlayers`, and the loop stops after a full cycle or at the
bot's own index `botNumber - 1`. The loop runs at most `totalPlayers` times, so fuel
`totalPlayers.toNat + 1` never runs out. The C++ pointer-identity test
`&playerShortestNextTurn == &*player` holds exactly when `playerToBlock` was null
(then the reference is `*player` itself) or `_compareNextTurn` returned its second
argument. -/
def searchPlayerToBlock (b : Board) (botNumber : Int) (avail : List Int) (T s : Int) :
    Nat → Int → List ConnectedCell → Option Player → List ConnectedCell × Option Player
  | 0, _, blockCells, blockPlayer => (blockCells, blockPlayer)
  | fuel + 1, n, blockCells, blockPlayer =>
    let i := n.tmod T
    if n < T + s ∧ i ≠ botNumber - 1 then
      let player := b.players.getD i.toNat dummyPlayer
      let playerCells := rankAvailableCells b player.marker avail
      let shortestIsCurrent : Bool :=
        match blockPlayer with
        | none => true
        | some pb => decide (¬ nextTurnFavorsFirst botNumber pb player)
      if blockCells = []
        ∨ (blockCells.headD dummyCell).totalConnected
            < (playerCells.headD dummyCell).totalConnected
        ∨ ((playerCells.headD dummyCell).totalConnected
              = (blockCells.headD dummyCell).totalConnected
            ∧ shortestIsCurrent = true) then
        searchPlayerToBlock b botNumber avail T s fuel (n + 1) playerCells (some player)
      else
        searchPlayerToBlock b botNumber avail T s fuel (n + 1) blockCells blockPlayer
    else (blockCells, blockPlayer)

/-- The inner dual-purpose scan of `Bot::requireCellSelection` (src/main.cpp:563-576),
returning the updated `bestCell` and the `isBestCellFound` flag. -/
def innerScan (topTotal : Nat) (playerCell : ConnectedCell) :
    List ConnectedCell → Option ConnectedCell → Option ConnectedCell × Bool
  | [], best => (best, false)
  | rankedCell :: rest, best =>
    if playerCell.totalConnected = topTotal
        ∧ playerCell.totalConnected = rankedCell.totalConnected then
      if playerCell.row = rankedCell.row ∧ playerCell.column = rankedCell.column then
        (some playerCell, true)
      else innerScan topTotal playerCell rest (some playerCell)
    else (best, false)

/-- The blocking loop of `Bot::requireCellSelection` (src/main.cpp:543-579). -/
def blockScan (topTotal : Nat) (rankedCells : List ConnectedCell) :
    List ConnectedCell → Option ConnectedCell → Option ConnectedCell
  | [], best => best
  | playerCell :: rest, best =>
    if playerCell.totalConnected = 0 then best
    else if topTotal < playerCell.totalConnected then some playerCell
    else
      let scan := innerScan topTotal playerCell rankedCells best
      if scan.2 then scan.1 else blockScan topTotal rankedCells rest scan.1

/-- `Bot::requireCellSelection` (src/main.cpp:504-602) for the bot with the given
number and marker; `randomPick` stands for the uniformly random index drawn in the
final random fallback. -/
def requireCellSelection (b : Board) (botNumber : Int) (botMarker : String)
    (randomPick : Nat) : Int :=
  let totalPlayers : Int := b.players.length
  let availableCells := findAvailableCellNumbers b
  let rankedCells := rankAvailableCells b botMarker availableCells
  let s := botNumber.tmod totalPlayers
  let search := searchPlayerToBlock b botNumber availableCells totalPlayers s
      (totalPlayers.toNat + 1) s [] none
  let playerToBlockCells := search.1
  let top := rankedCells.headD dummyCell
  let bestCell0 : Option ConnectedCell :=
    if 3 ≤ top.totalConnected then some top else none
  let bestCell := blockScan top.totalConnected rankedCells playerToBlockCells bestCell0
  match bestCell with
  | some c => cellNumberByPosition b.gridSize c.row c.column
  | none =>
    if 1 ≤ top.verticalChain ∨ 1 ≤ top.horizontalChain
        ∨ 1 ≤ top.diagonalLeftChain ∨ 1 ≤ top.diagonalRightChain then
      cellNumberByPosition b.gridSize top.row top.column
    else
      availableCells.getD randomPick 0

/-- `ClassicBoard::ClassicBoard` (src/main.cpp:973-977): the grid size is forced to
`players.size() + 1`; the base constructor default-initialises an all-empty grid. -/
def mkClassicBoard (players : List Player) : Board :=
  { gridSize := (players.length : Int) + 1
    grid := fun _ _ => ""
    players := players
    playerTurn := none }

/-- `FrenzyBoard::FrenzyBoard` (src/main.cpp:1000-1005): the grid size is
caller-supplied. -/
def mkFrenzyBoard (players : List Player) (gridSize : Int) : Board :=
  { gridSize := gridSize
    grid := fun _ _ => ""
    players := players
    playerTurn := none }

/-- Modelled from the spec wording (for comparison with `countChainByDirection`):
the length of the run of cells equal to `targetMarker` starting one step from
`(row, column)` in direction `(deltaRow, deltaColumn)`, stopping at the grid
boundary or at the first non-matching cell, with no `maxChain` cap. Along any of
the eight unit directions such a run never exceeds the grid dimension, so fuel
`N.toNat` is always sufficient there (proved below). -/
def runLengthAux (N : Int) (g : Int → Int → String) (targetMarker : String)
    (deltaRow deltaColumn : Int) : Nat → Int → Int → Nat
  | 0, _, _ => 0
  | fuel + 1, row, column =>
    let row' := row + deltaRow
    let column' := column + deltaColumn
    if 0 ≤ row' ∧ row' < N ∧ 0 ≤ column' ∧ column' < N ∧ g row' column' = targetMarker then
      runLengthAux N g targetMarker deltaRow deltaColumn fuel row' column' + 1
    else 0

/-- The uncapped run length along a unit direction (see `runLengthAux`). -/
def runLength (N : Int) (g : Int → Int → String) (targetMarker : String)
    (deltaRow deltaColumn row column : Int) : Nat :=
  runLengthAux N g targetMarker deltaRow deltaColumn N.toNat row column

/-! ### Concrete instances used by witnesses and counterexamples -/

def playerOneX : Player := { number := 1, marker := "X", score := 0, lastScore := 0, isBot := false }

def botTwoO : Player := { number := 2, marker := "O", score := 0, lastScore := 0, isBot := true }

def playerThreeZ : Player := { number := 3, marker := "Z", score := 0, lastScore := 0, isBot := false }

/-- 3x3 grid with marker X on cell numbers 0 and 1 (positions (0,0) and (0,1)). -/
def exGridXX : Int → Int → String :=
  fun r c => if r = 0 ∧ (c = 0 ∨ c = 1) then "X" else ""

/-- The C2 scenario: 3x3 grid, X on cells 0 and 1, bot plays O, it is the bot's turn. -/
def scenarioBoard : Board :=
  { gridSize := 3, grid := exGridXX, players := [playerOneX, botTwoO], playerTurn := some 1 }

/-- 3x3 grid whose whole first column holds marker x. -/
def exGridColumn : Int → Int → String := fun _ c => if c = 0 then "x" else ""

def scorePlayerA1 : Player := { number := 1, marker := "A", score := 5, lastScore := 0, isBot := false }

def scorePlayerA2 : Player := { number := 2, marker := "B", score := 5, lastScore := 0, isBot := false }

def scorePlayerA3 : Player := { number := 3, marker := "C", score := 3, lastScore := 0, isBot := false }

def scorePlayerB2 : Player := { number := 2, marker := "B", score := 3, lastScore := 0, isBot := false }

/-- Final scores 5, 5, 3. -/
def scoreBoardA : Board :=
  { gridSize := 4, grid := fun _ _ => "", players := [scorePlayerA1, scorePlayerA2, scorePlayerA3],
    playerTurn := none }

/-- Final scores 5, 3, 3. -/
def scoreBoardB : Board :=
  { gridSize := 4, grid := fun _ _ => "", players := [scorePlayerA1, scorePlayerB2, scorePlayerA3],
    playerTurn := none }

/-- A 3x3 board mid-game: X on cells 0 and 1, player 1 (index 0) to move. -/
def witnessBoard : Board :=
  { gridSize := 3, grid := exGridXX, players := [playerOneX, botTwoO], playerTurn := some 0 }

/-- A 3x3 board with two players and no turn holder yet. -/
def toggleBoard : Board :=
  { gridSize := 3, grid := fun _ _ => "", players := [playerOneX, botTwoO], playerTurn := none }

/-! ### Position mapping lemmas -/

lemma decode_encode {N c : Int} (hN : 0 < N) (hc0 : 0 ≤ c) (hcN : c < N * N) :
    inBounds N (rowByCellNumber N c) (columnByCellNumber N c)
      ∧ cellNumberByPosition N (rowByCellNumber N c) (columnByCellNumber N c) = c := by
  have hx0 : 0 ≤ c.tmod N := Int.tmod_nonneg N hc0
  have hxN : c.tmod N < N := Int.tmod_lt_of_pos c hN
  have hy0 : 0 ≤ c.tdiv N := Int.tdiv_nonneg hc0 hN.le
  have hsum : N * c.tdiv N + c.tmod N = c := Int.tdiv_add_tmod c N
  have hyN : c.tdiv N < N := by
    have h1 : N * c.tdiv N < N * N := by linarith
    exact lt_of_mul_lt_mul_left h1 hN.le
  refine ⟨⟨hy0, hyN, hx0, hxN⟩, ?_⟩
  simp only [cellNumberByPosition, rowByCellNumber, columnByCellNumber]
  linarith [mul_comm N (c.tdiv N)]

lemma encode_decode {N row column : Int} (hN : 0 < N) (hr : 0 ≤ row)
    (hc0 : 0 ≤ column) (hcN : column < N) :
    rowByCellNumber N (cellNumberByPosition N row column) = row
      ∧ columnByCellNumber N (cellNumberByPosition N row column) = column := by
  have henc0 : 0 ≤ row * N + column := add_nonneg (mul_nonneg hr hN.le) hc0
  constructor
  · simp only [rowByCellNumber, cellNumberByPosition]
    rw [Int.tdiv_eq_ediv henc0 hN.le, show row * N + column = column + row * N by ring,
      Int.add_mul_ediv_right column row (by omega : N ≠ 0),
      Int.ediv_eq_zero_of_lt hc0 hcN]
    ring
  · simp only [columnByCellNumber, cellNumberByPosition]
    rw [Int.tmod_eq_emod henc0 hN.le, show row * N + column = column + N * row by ring,
      Int.add_mul_emod_self_left]
    exact Int.emod_eq_of_lt hc0 hcN

/-! ### markCellByNumber helper lemmas -/

lemma markCellByNumber_fail {b : Board} {cellNumber : Int} {marker : String}
    (h : columnByCellNumber b.gridSize cellNumber < 0
      ∨ b.gridSize ≤ columnByCellNumber b.gridSize cellNumber
      ∨ rowByCellNumber b.gridSize cellNumber < 0
      ∨ b.gridSize ≤ rowByCellNumber b.gridSize cellNumber
      ∨ b.grid (rowByCellNumber b.gridSize cellNumber)
          (columnByCellNumber b.gridSize cellNumber) ≠ ""
      ∨ b.playerTurn = none) :
    markCellByNumber b cellNumber marker = (false, b) := by
  simp only [markCellByNumber]
  rw [if_pos h]

lemma markCellByNumber_succeed (b : Board) (cellNumber : Int) (marker : String) (i : Nat)
    (hturn : b.playerTurn = some i)
    (hin : inBounds b.gridSize (rowByCellNumber b.gridSize cellNumber)
      (columnByCellNumber b.gridSize cellNumber))
    (hempty : b.grid (rowByCellNumber b.gridSize cellNumber)
      (columnByCellNumber b.gridSize cellNumber) = "") :
    markCellByNumber b cellNumber marker =
      (true,
        { b with
          grid := fun r c =>
            if r = rowByCellNumber b.gridSize cellNumber
                ∧ c = columnByCellNumber b.gridSize cellNumber then marker
            else b.grid r c
          players := b.players.set i ((b.players.getD i dummyPlayer).setScore
            ((b.players.getD i dummyPlayer).score +
              ((findConnectedCell b.gridSize
                (fun r c =>
                  if r = rowByCellNumber b.gridSize cellNumber
                      ∧ c = columnByCellNumber b.gridSize cellNumber then marker
                  else b.grid r c)
                (rowByCellNumber b.gridSize cellNumber)
                (columnByCellNumber b.gridSize cellNumber) marker).totalConnected : Int))) }) := by
  obtain ⟨h1, h2, h3, h4⟩ := hin
  simp only [markCellByNumber]
  rw [if_neg (by
    push_neg
    exact ⟨by omega, by omega, by omega, by omega, hempty, by rw [hturn]; simp⟩), hturn]

lemma markCellByNumber_fst_true {b : Board} {cellNumber : Int} {marker : String} (i : Nat)
    (hturn : b.playerTurn = some i)
    (hin : inBounds b.gridSize (rowByCellNumber b.gridSize cellNumber)
      (columnByCellNumber b.gridSize cellNumber))
    (hempty : b.grid (rowByCellNumber b.gridSize cellNumber)
      (columnByCellNumber b.gridSize cellNumber) = "") :
    (markCellByNumber b cellNumber marker).1 = true := by
  rw [markCellByNumber_succeed b cellNumber marker i hturn hin hempty]

lemma mem_findAvailableCellNumbers (b : Board) (n : Int) :
    n ∈ findAvailableCellNumbers b ↔
      ∃ row column : Int, inBounds b.gridSize row column
        ∧ b.grid row column = "" ∧ n = cellNumberByPosition b.gridSize row column := by
  simp only [findAvailableCellNumbers, List.mem_flatMap, List.mem_filterMap, List.mem_range]
  constructor
  · rintro ⟨r, hr, c, hc, hif⟩
    by_cases hg : b.grid (r : Int) (c : Int) = ""
    · rw [if_pos hg] at hif
      exact ⟨r, c, ⟨by omega, by omega, by omega, by omega⟩, hg,
        (Option.some_inj.mp hif).symm⟩
    · rw [if_neg hg] at hif
      exact absurd hif (by simp)
  · rintro ⟨row, column, ⟨hr0, hrN, hc0, hcN⟩, hg, rfl⟩
    refine ⟨row.toNat, by omega, column.toNat, by omega, ?_⟩
    rw [show ((row.toNat : Int)) = row from Int.toNat_of_nonneg hr0,
      show ((column.toNat : Int)) = column from Int.toNat_of_nonneg hc0, if_pos hg]

/-- C8: for every grid size N >= 3 the mappings `rowByCellNumber` (truncated
division by N), `columnByCellNumber` (truncated remainder by N) and
`cellNumberByPosition` (row * N + column) are mutually inverse between cell
numbers in [0, N^2) and in-bounds positions, hence the (row, column) <->
cell-number correspondence is a bijection. -/
theorem cellNumber_position_bijection (N : Int) (hN : 3 ≤ N) :
    (∀ c : Int, 0 ≤ c → c < N * N →
      inBounds N (rowByCellNumber N c) (columnByCellNumber N c)
        ∧ cellNumberByPosition N (rowByCellNumber N c) (columnByCellNumber N c) = c)
    ∧ (∀ row column : Int, inBounds N row column →
        0 ≤ cellNumberByPosition N row column
          ∧ cellNumberByPosition N row column < N * N
          ∧ rowByCellNumber N (cellNumberByPosition N row column) = row
          ∧ columnByCellNumber N (cellNumberByPosition N row column) = column)
    ∧ Set.BijOn (fun c => (rowByCellNumber N c, columnByCellNumber N c))
        (Set.Ico 0 (N * N)) (Set.Ico 0 N ×ˢ Set.Ico 0 N) := by
  have hN0 : 0 < N := by omega
  have henc : ∀ row column : Int, inBounds N row column →
      0 ≤ cellNumberByPosition N row column ∧ cellNumberByPosition N row column < N * N := by
    rintro row column ⟨h1, h2, h3, h4⟩
    refine ⟨add_nonneg (mul_nonneg h1 hN0.le) h3, ?_⟩
    have : row * N ≤ (N - 1) * N :=
      mul_le_mul_of_nonneg_right (by omega) hN0.le
    simp only [cellNumberByPosition]
    nlinarith
  refine ⟨fun c hc0 hcN => decode_encode hN0 hc0 hcN, ?_, ?_, ?_, ?_⟩
  · rintro row column hin
    obtain ⟨h1, h2, h3, h4⟩ := hin
    have h5 := encode_decode hN0 h1 h3 h4
    exact ⟨(henc row column ⟨h1, h2, h3, h4⟩).1, (henc row column ⟨h1, h2, h3, h4⟩).2, h5.1, h5.2⟩
  · -- MapsTo
    rintro c hc
    simp only [Set.mem_Ico] at hc
    have h := decode_encode hN0 hc.1 hc.2
    simp only [Set.mem_prod, Set.mem_Ico]
    exact ⟨⟨h.1.1, h.1.2.1⟩, h.1.2.2.1, h.1.2.2.2⟩
  · -- InjOn
    rintro c1 hc1 c2 hc2 heq
    simp only [Set.mem_Ico] at hc1 hc2
    have e1 := (decode_encode hN0 hc1.1 hc1.2).2
    have e2 := (decode_encode hN0 hc2.1 hc2.2).2
    have hr : rowByCellNumber N c1 = rowByCellNumber N c2 := congrArg Prod.fst heq
    have hc : columnByCellNumber N c1 = columnByCellNumber N c2 := congrArg Prod.snd heq
    rw [← e1, ← e2, hr, hc]
  · -- SurjOn
    rintro ⟨row, column⟩ hp
    simp only [Set.mem_prod, Set.mem_Ico] at hp
    obtain ⟨⟨h1, h2⟩, h3, h4⟩ := hp
    have h5 := encode_decode hN0 h1 h3 h4
    refine ⟨cellNumberByPosition N row column, ?_, ?_⟩
    · simp only [Set.mem_Ico]
      exact henc row column ⟨h1, h2, h3, h4⟩
    · simp only [h5.1, h5.2]

theorem cellNumber_position_bijection_witness :
    inBounds 3 (rowByCellNumber 3 7) (columnByCellNumber 3 7)
      ∧ cellNumberByPosition 3 (rowByCellNumber 3 7) (columnByCellNumber 3 7) = 7 :=
  (cellNumber_position_bijection 3 (by decide)).1 7 (by decide) (by decide)

/-- C9: the Classic constructor fixes the grid size to `players.size() + 1`,
while the Frenzy constructor takes the grid size as an argument. -/
theorem classicBoard_grid_size (players : List Player) (h2 : 2 ≤ players.length) :
    (mkClassicBoard players).gridSize = (players.length : Int) + 1
    ∧ ∀ gs : Int, (mkFrenzyBoard players gs).gridSize = gs :=
  ⟨rfl, fun _ => rfl⟩

theorem classicBoard_grid_size_witness :
    (mkClassicBoard [playerOneX, botTwoO]).gridSize = 3
    ∧ (mkFrenzyBoard [playerOneX, botTwoO] 5).gridSize = 5 := by
  have h := classicBoard_grid_size [playerOneX, botTwoO] (by decide)
  exact ⟨by rw [h.1]; decide, h.2 5⟩

/-- C3: `markCellByNumber` returns false and leaves the whole board state
unchanged when the cell number decodes out of bounds, the cell is occupied, or
no turn holder is set; otherwise it writes the marker, adds the placed cell's
`totalConnected` (computed on the updated grid with the default unbounded
`maxChain`) to the turn holder's score with `lastScore` becoming the previous
score, leaves every other player and the turn holder untouched, and returns
true (so a zero-delta placement also returns true and adds 0). -/
theorem markCellByNumber_spec (b : Board) (cellNumber : Int) (marker : String) :
    ((columnByCellNumber b.gridSize cellNumber < 0
      ∨ b.gridSize ≤ columnByCellNumber b.gridSize cellNumber
      ∨ rowByCellNumber b.gridSize cellNumber < 0
      ∨ b.gridSize ≤ rowByCellNumber b.gridSize cellNumber
      ∨ b.grid (rowByCellNumber b.gridSize cellNumber)
          (columnByCellNumber b.gridSize cellNumber) ≠ ""
      ∨ b.playerTurn = none) →
      markCellByNumber b cellNumber marker = (false, b))
    ∧ (∀ i : Nat, b.playerTurn = some i → i < b.players.length →
        inBounds b.gridSize (rowByCellNumber b.gridSize cellNumber)
          (columnByCellNumber b.gridSize cellNumber) →
        b.grid (rowByCellNumber b.gridSize cellNumber)
          (columnByCellNumber b.gridSize cellNumber) = "" →
        (markCellByNumber b cellNumber marker).1 = true
        ∧ (markCellByNumber b cellNumber marker).2.grid
            (rowByCellNumber b.gridSize cellNumber)
            (columnByCellNumber b.gridSize cellNumber) = marker
        ∧ (∀ r c : Int, ¬(r = rowByCellNumber b.gridSize cellNumber
              ∧ c = columnByCellNumber b.gridSize cellNumber) →
            (markCellByNumber b cellNumber marker).2.grid r c = b.grid r c)
        ∧ ((markCellByNumber b cellNumber marker).2.players.getD i dummyPlayer).score
            = (b.players.getD i dummyPlayer).score
              + ((findConnectedCell b.gridSize (markCellByNumber b cellNumber marker).2.grid
                  (rowByCellNumber b.gridSize cellNumber)
                  (columnByCellNumber b.gridSize cellNumber) marker).totalConnected : Int)
        ∧ ((markCellByNumber b cellNumber marker).2.players.getD i dummyPlayer).lastScore
            = (b.players.getD i dummyPlayer).score
        ∧ (∀ j : Nat, j ≠ i →
            (markCellByNumber b cellNumber marker).2.players.getD j dummyPlayer
              = b.players.getD j dummyPlayer)
        ∧ (markCellByNumber b cellNumber marker).2.playerTurn = b.playerTurn
        ∧ (markCellByNumber b cellNumber marker).2.gridSize = b.gridSize) := by
  constructor
  · exact fun h => markCellByNumber_fail h
  · intro i hturn hi hin hempty
    have H := markCellByNumber_succeed b cellNumber marker i hturn hin hempty
    rw [H]
    refine ⟨rfl, by simp, fun r c hrc => by simp only [if_neg hrc], ?_, ?_, ?_, rfl, rfl⟩
    · simp only [List.getD_eq_getElem?_getD, List.getElem?_set_self hi]
      rfl
    · simp only [List.getD_eq_getElem?_getD, List.getElem?_set_self hi]
      rfl
    · intro j hj
      simp only [List.getD_eq_getElem?_getD, List.getElem?_set_ne (fun h => hj h.symm)]

theorem markCellByNumber_spec_witness :
    markCellByNumber witnessBoard 10 "X" = (false, witnessBoard)
    ∧ markCellByNumber witnessBoard 0 "O" = (false, witnessBoard)
    ∧ (markCellByNumber witnessBoard 2 "X").1 = true
    ∧ ((markCellByNumber witnessBoard 2 "X").2.players.getD 0 dummyPlayer).score = 3 := by
  refine ⟨(markCellByNumber_spec witnessBoard 10 "X").1 (by decide),
    (markCellByNumber_spec witnessBoard 0 "O").1 (by decide), ?_⟩
  have h := (markCellByNumber_spec witnessBoard 2 "X").2 0 rfl (by decide) (by decide) (by decide)
  refine ⟨h.1, ?_⟩
  rw [h.2.2.2.1]
  decide

/-- C10: `markCellByNumber` never validates the marker string: marking an empty
in-bounds cell with the empty string succeeds, yet the cell still shows up in
`findAvailableCellNumbers` (the empty string encodes an unmarked cell), so the
same cell can be successfully marked again without a reset. -/
theorem markCellByNumber_empty_marker (b : Board) (cellNumber : Int) (i : Nat)
    (hN : 0 < b.gridSize) (h0 : 0 ≤ cellNumber)
    (h1 : cellNumber < b.gridSize * b.gridSize)
    (hturn : b.playerTurn = some i)
    (hempty : b.grid (rowByCellNumber b.gridSize cellNumber)
      (columnByCellNumber b.gridSize cellNumber) = "") :
    (markCellByNumber b cellNumber "").1 = true
    ∧ cellNumber ∈ findAvailableCellNumbers (markCellByNumber b cellNumber "").2
    ∧ (markCellByNumber (markCellByNumber b cellNumber "").2 cellNumber "").1 = true := by
  obtain ⟨hin, henc⟩ := decode_encode hN h0 h1
  have H := markCellByNumber_succeed b cellNumber "" i hturn hin hempty
  refine ⟨by rw [H], ?_, ?_⟩
  · rw [H]
    refine (mem_findAvailableCellNumbers _ cellNumber).mpr
      ⟨rowByCellNumber b.gridSize cellNumber, columnByCellNumber b.gridSize cellNumber,
        hin, by simp, henc.symm⟩
  · rw [H]
    exact markCellByNumber_fst_true i hturn hin (by simp)

theorem markCellByNumber_empty_marker_witness :
    (markCellByNumber witnessBoard 2 "").1 = true
    ∧ (2 : Int) ∈ findAvailableCellNumbers (markCellByNumber witnessBoard 2 "").2
    ∧ (markCellByNumber (markCellByNumber witnessBoard 2 "").2 2 "").1 = true :=
  markCellByNumber_empty_marker witnessBoard 2 0 (by decide) (by decide) (by decide)
    rfl (by decide)

/-! ### resultText lemmas -/

lemma resultTextLoop_all_lt : ∀ (L : List Player) (top : Option Player) (ts : Int),
    (∀ p ∈ L, p.score < ts) → resultTextLoop L top ts = top := by
  intro L
  induction L with
  | nil => intro top ts _; rfl
  | cons p rest ih =>
    intro top ts h
    have hp := h p (List.mem_cons_self p rest)
    simp only [resultTextLoop]
    rw [if_neg (by omega), if_neg (by omega)]
    exact ih top ts (fun q hq => h q (List.mem_cons_of_mem p hq))

lemma resultTextLoop_none_all_le : ∀ (L : List Player) (ts : Int),
    (∀ p ∈ L, p.score ≤ ts) → resultTextLoop L none ts = none := by
  intro L
  induction L with
  | nil => intro ts _; rfl
  | cons p rest ih =>
    intro ts h
    have hp := h p (List.mem_cons_self p rest)
    simp only [resultTextLoop]
    rw [if_neg (by omega)]
    by_cases he : p.score = ts
    · rw [if_pos he]
      exact ih ts (fun q hq => h q (List.mem_cons_of_mem p hq))
    · rw [if_neg he]
      exact ih ts (fun q hq => h q (List.mem_cons_of_mem p hq))

lemma resultTextLoop_tie : ∀ (L : List Player) (top : Option Player) (ts : Int),
    (∀ p ∈ L, p.score ≤ ts) → (∃ p ∈ L, p.score = ts) → resultTextLoop L top ts = none := by
  intro L
  induction L with
  | nil => rintro top ts _ ⟨p, hp, _⟩; exact absurd hp (by simp)
  | cons p rest ih =>
    rintro top ts hle ⟨q, hq, hqs⟩
    have hp := hle p (List.mem_cons_self p rest)
    simp only [resultTextLoop]
    rw [if_neg (by omega)]
    by_cases he : p.score = ts
    · rw [if_pos he]
      exact resultTextLoop_none_all_le rest ts (fun r hr => hle r (List.mem_cons_of_mem p hr))
    · rw [if_neg he]
      rcases List.mem_cons.mp hq with rfl | hq2
      · exact absurd hqs he
      · exact ih top ts (fun r hr => hle r (List.mem_cons_of_mem p hr)) ⟨q, hq2, hqs⟩

lemma resultTextLoop_strict_max : ∀ (L : List Player) (top : Option Player) (ts : Int)
    (i : Nat), i < L.length →
    (∀ j : Nat, j < L.length → j ≠ i →
      (L.getD j dummyPlayer).score < (L.getD i dummyPlayer).score) →
    ts < (L.getD i dummyPlayer).score →
    resultTextLoop L top ts = some (L.getD i dummyPlayer) := by
  intro L
  induction L with
  | nil => intro top ts i hi; exact absurd hi (by simp)
  | cons p rest ih =>
    intro top ts i hi hmax hts
    cases i with
    | zero =>
      simp only [List.getD_cons_zero] at hts ⊢
      simp only [resultTextLoop]
      rw [if_pos hts]
      refine resultTextLoop_all_lt rest (some p) p.score (fun q hq => ?_)
      obtain ⟨j, hj, rfl⟩ := List.mem_iff_getElem.mp hq
      have h3 := hmax (j + 1) (by simp only [List.length_cons]; omega) (by omega)
      rw [List.getD_cons_succ, List.getD_cons_zero,
        List.getD_eq_getElem rest dummyPlayer hj] at h3
      exact h3
    | succ i =>
      have hp : p.score < ((p :: rest).getD (i + 1) dummyPlayer).score :=
        hmax 0 (by omega) (by omega)
      simp only [List.getD_cons_zero] at hp
      simp only [List.getD_cons_succ] at hts hp ⊢
      have hrest : ∀ j : Nat, j < rest.length → j ≠ i →
          (rest.getD j dummyPlayer).score < (rest.getD i dummyPlayer).score := by
        intro j hj hji
        have := hmax (j + 1) (by simpa using Nat.succ_lt_succ hj) (by omega)
        simpa [List.getD_cons_succ] using this
      have hilen : i < rest.length := by simpa using hi
      simp only [resultTextLoop]
      by_cases h1 : ts < p.score
      · rw [if_pos h1]
        exact ih (some p) p.score i hilen hrest hp
      · rw [if_neg h1]
        by_cases h2 : p.score = ts
        · rw [if_pos h2]
          exact ih none ts i hilen hrest hts
        · rw [if_neg h2]
          exact ih top ts i hilen hrest hts

lemma resultTextLoop_draw : ∀ (L : List Player) (top : Option Player) (ts : Int)
    (i j : Nat), i < j → j < L.length →
    (L.getD j dummyPlayer).score = (L.getD i dummyPlayer).score →
    (∀ k : Nat, k < L.length → (L.getD k dummyPlayer).score ≤ (L.getD i dummyPlayer).score) →
    ts ≤ (L.getD i dummyPlayer).score →
    resultTextLoop L top ts = none := by
  intro L
  induction L with
  | nil => intro top ts i j _ hj; exact absurd hj (by simp)
  | cons p rest ih =>
    intro top ts i j hij hj heq hmax hts
    have hjlen : j - 1 < rest.length := by
      simp only [List.length_cons] at hj
      omega
    cases i with
    | zero =>
      simp only [List.getD_cons_zero] at heq hmax hts
      have hmemj : (rest.getD (j - 1) dummyPlayer).score = p.score := by
        have : (p :: rest).getD j dummyPlayer = rest.getD (j - 1) dummyPlayer := by
          cases j with
          | zero => omega
          | succ j => simp [List.getD_cons_succ]
        rw [this] at heq
        exact heq
      have hle : ∀ q ∈ rest, q.score ≤ p.score := by
        intro q hq
        obtain ⟨k, hk, rfl⟩ := List.mem_iff_getElem.mp hq
        have h3 := hmax (k + 1) (by simp only [List.length_cons]; omega)
        rw [List.getD_cons_succ, List.getD_eq_getElem rest dummyPlayer hk] at h3
        exact h3
      simp only [resultTextLoop]
      by_cases h1 : ts < p.score
      · rw [if_pos h1]
        refine resultTextLoop_tie rest (some p) p.score hle
          ⟨rest.getD (j - 1) dummyPlayer, ?_, hmemj⟩
        rw [List.getD_eq_getElem rest dummyPlayer hjlen]
        exact List.getElem_mem hjlen
      · rw [if_neg h1, if_pos (by omega)]
        exact resultTextLoop_none_all_le rest ts
          (fun q hq => le_trans (hle q hq) (by omega))
    | succ i =>
      cases j with
      | zero => omega
      | succ j =>
        have hp : p.score ≤ ((p :: rest).getD (i + 1) dummyPlayer).score := hmax 0 (by omega)
        simp only [List.getD_cons_zero] at hp
        simp only [List.getD_cons_succ] at heq hts hp ⊢
        have hilen : i < rest.length := by
          have : j < rest.length := by simpa using hj
          omega
        have hrest : ∀ k : Nat, k < rest.length →
            (rest.getD k dummyPlayer).score ≤ (rest.getD i dummyPlayer).score := by
          intro k hk
          have := hmax (k + 1) (by simpa using Nat.succ_lt_succ hk)
          simpa [List.getD_cons_succ] using this
        have hjr : j < rest.length := by simpa using hj
        simp only [resultTextLoop]
        by_cases h1 : ts < p.score
        · rw [if_pos h1]
          exact ih (some p) p.score i j (by omega) hjr heq hrest hp
        · rw [if_neg h1]
          by_cases h2 : p.score = ts
          · rw [if_pos h2]
            exact ih none ts i j (by omega) hjr heq hrest hts
          · rw [if_neg h2]
            exact ih top ts i j (by omega) hjr heq hrest hts

/-- C5: `resultText` reports the player holding the strict maximum score as the
winner and reports a draw whenever two or more players tie for the maximum
(including when every score is 0); concretely, final scores 5, 5, 3 yield a
draw and 5, 3, 3 yield the score-5 player as winner. (Games always have at
least two players and scores are sums of nonnegative connection counts, hence
the two side conditions.) -/
theorem resultText_spec (b : Board) (hlen : 2 ≤ b.players.length)
    (hnn : ∀ p ∈ b.players, 0 ≤ p.score) :
    (∀ i : Nat, i < b.players.length →
      (∀ j : Nat, j < b.players.length → j ≠ i →
        (b.players.getD j dummyPlayer).score < (b.players.getD i dummyPlayer).score) →
      resultText b = winText (b.players.getD i dummyPlayer))
    ∧ (∀ i j : Nat, i < j → j < b.players.length →
        (b.players.getD j dummyPlayer).score = (b.players.getD i dummyPlayer).score →
        (∀ k : Nat, k < b.players.length →
          (b.players.getD k dummyPlayer).score ≤ (b.players.getD i dummyPlayer).score) →
        resultText b = drawText)
    ∧ resultText scoreBoardA = drawText
    ∧ resultText scoreBoardB = "Game over! Player-1 (A) has won!\n" := by
  refine ⟨?_, ?_, by decide, by decide⟩
  · intro i hi hmax
    have hpos : 0 < (b.players.getD i dummyPlayer).score := by
      have hj : ∃ j : Nat, j < b.players.length ∧ j ≠ i := by
        cases i with
        | zero => exact ⟨1, by omega, by omega⟩
        | succ i => exact ⟨0, by omega, by omega⟩
      obtain ⟨j, hjlen, hji⟩ := hj
      have h1 := hmax j hjlen hji
      have h2 : 0 ≤ (b.players.getD j dummyPlayer).score := by
        refine hnn _ ?_
        rw [List.getD_eq_getElem b.players dummyPlayer hjlen]
        exact List.getElem_mem hjlen
      omega
    rw [resultText, resultTextLoop_strict_max b.players none 0 i hi hmax hpos]
  · intro i j hij hj heq hmax
    have hts : (0 : Int) ≤ (b.players.getD i dummyPlayer).score := by
      refine hnn _ ?_
      have hi : i < b.players.length := by omega
      rw [List.getD_eq_getElem b.players dummyPlayer hi]
      exact List.getElem_mem hi
    rw [resultText, resultTextLoop_draw b.players none 0 i j hij hj heq hmax hts]

theorem resultText_spec_witness :
    resultText scoreBoardB = winText scorePlayerA1
    ∧ resultText scoreBoardA = drawText := by
  have h := resultText_spec scoreBoardB (by decide) (by decide)
  have h2 := resultText_spec scoreBoardA (by decide) (by decide)
  exact ⟨h.1 0 (by decide) (by decide), h2.2.1 0 1 (by decide) (by decide) (by decide)
    (by decide)⟩

/-! ### togglePlayerTurn lemmas -/

lemma togglePlayerTurn_players (r : Nat) (b : Board) :
    (togglePlayerTurn r b).players = b.players := rfl

lemma toggleIterate_players (rs : Nat → Nat) (b : Board) :
    ∀ k : Nat, (toggleIterate rs b k).players = b.players := by
  intro k
  induction k with
  | zero => rfl
  | succ k ih =>
    show (togglePlayerTurn (rs k) (toggleIterate rs b k)).players = b.players
    rw [togglePlayerTurn_players, ih]

lemma togglePlayerTurn_none {b : Board} (hb : b.playerTurn = none) (r : Nat) :
    (togglePlayerTurn r b).playerTurn = some r := by
  simp [togglePlayerTurn, hb]

lemma togglePlayerTurn_some (b : Board) (i : Nat) (hb : b.playerTurn = some i)
    (hi : i < b.players.length)
    (hnum : (b.players.getD i dummyPlayer).number = (i : Int) + 1) (r : Nat) :
    (togglePlayerTurn r b).playerTurn = some ((i + 1) % b.players.length) := by
  simp only [togglePlayerTurn, hb, hnum]
  rw [show ((i : Int) + 1 - 1) = (i : Int) by ring, if_neg (by omega : ¬ (i : Int) = -1)]
  by_cases h2 : (b.players.length : Int) ≤ (i : Int) + 1
  · rw [if_pos h2]
    have h3 : i + 1 = b.players.length := by omega
    rw [h3, Nat.mod_self]
    simp
  · rw [if_neg h2]
    have h3 : i + 1 < b.players.length := by omega
    rw [Nat.mod_eq_of_lt h3]
    have h4 : ((i : Int) + 1).toNat = i + 1 := by omega
    rw [h4]

lemma toggleIterate_state (rs : Nat → Nat) (b : Board)
    (hb : b.playerTurn = none) (hr : rs 0 < b.players.length)
    (hnum : ∀ i : Nat, i < b.players.length →
      (b.players.getD i dummyPlayer).number = (i : Int) + 1) :
    ∀ k : Nat, (toggleIterate rs b (k + 1)).playerTurn
      = some ((rs 0 + k) % b.players.length) := by
  have hlen : 0 < b.players.length := by omega
  intro k
  induction k with
  | zero =>
    show (togglePlayerTurn (rs 0) (toggleIterate rs b 0)).playerTurn = _
    rw [show toggleIterate rs b 0 = b from rfl, togglePlayerTurn_none hb (rs 0),
      Nat.add_zero, Nat.mod_eq_of_lt hr]
  | succ k ih =>
    show (togglePlayerTurn (rs (k + 1)) (toggleIterate rs b (k + 1))).playerTurn = _
    have hmlt : (rs 0 + k) % b.players.length < b.players.length := Nat.mod_lt _ hlen
    have hplayers := toggleIterate_players rs b (k + 1)
    have hstep := togglePlayerTurn_some (toggleIterate rs b (k + 1))
      ((rs 0 + k) % b.players.length) ih (by rw [hplayers]; exact hmlt)
      (by rw [hplayers]; exact hnum _ hmlt) (rs (k + 1))
    rw [hplayers] at hstep
    rw [hstep]
    congr 1
    rw [Nat.mod_add_mod]
    exact congrArg (fun t => t % b.players.length) (by omega : rs 0 + k + 1 = rs 0 + (k + 1))

/-- C7: with players numbered 1..N in list order, `togglePlayerTurn` picks the
drawn index when no turn holder is set, advances the turn holder from index i
to (i + 1) mod N otherwise, and consequently N successive calls starting from
the unset state visit every player index exactly once. -/
theorem togglePlayerTurn_spec (b : Board)
    (hnum : ∀ i : Nat, i < b.players.length →
      (b.players.getD i dummyPlayer).number = (i : Int) + 1) :
    (b.playerTurn = none → ∀ r : Nat, r < b.players.length →
      (togglePlayerTurn r b).playerTurn = some r)
    ∧ (∀ i r : Nat, b.playerTurn = some i → i < b.players.length →
        (togglePlayerTurn r b).playerTurn = some ((i + 1) % b.players.length))
    ∧ (b.playerTurn = none → ∀ rs : Nat → Nat, rs 0 < b.players.length →
        ∀ j : Nat, j < b.players.length →
          ∃! k : Nat, k < b.players.length
            ∧ (toggleIterate rs b (k + 1)).playerTurn = some j) := by
  refine ⟨fun hb r _ => togglePlayerTurn_none hb r,
    fun i r hb hi => togglePlayerTurn_some b i hb hi (hnum i hi) r, ?_⟩
  intro hb rs hr j hj
  have hlen : 0 < b.players.length := by omega
  have hstate := toggleIterate_state rs b hb hr hnum
  refine ⟨if rs 0 ≤ j then j - rs 0 else b.players.length + j - rs 0, ⟨?_, ?_⟩, ?_⟩
  · split_ifs with h <;> omega
  · split_ifs with h
    · rw [hstate]
      congr 1
      rw [show rs 0 + (j - rs 0) = j by omega, Nat.mod_eq_of_lt hj]
    · rw [hstate]
      congr 1
      rw [show rs 0 + (b.players.length + j - rs 0) = b.players.length + j by omega,
        Nat.add_mod_left]
      exact Nat.mod_eq_of_lt hj
  · rintro k ⟨hk, hkj⟩
    rw [hstate] at hkj
    have hkmod : (rs 0 + k) % b.players.length = j := Option.some_inj.mp hkj
    split_ifs with h
    · have hc : (rs 0 + (j - rs 0)) % b.players.length = j := by
        rw [show rs 0 + (j - rs 0) = j by omega, Nat.mod_eq_of_lt hj]
      have hcong : (rs 0 + k) % b.players.length
          = (rs 0 + (j - rs 0)) % b.players.length := by rw [hkmod, hc]
      have hmeq : k % b.players.length = (j - rs 0) % b.players.length :=
        Nat.ModEq.add_left_cancel' (rs 0) hcong
      rw [Nat.mod_eq_of_lt hk, Nat.mod_eq_of_lt (by omega)] at hmeq
      exact hmeq
    · have hc : (rs 0 + (b.players.length + j - rs 0)) % b.players.length = j := by
        rw [show rs 0 + (b.players.length + j - rs 0) = b.players.length + j by omega,
          Nat.add_mod_left]
        exact Nat.mod_eq_of_lt hj
      have hcong : (rs 0 + k) % b.players.length
          = (rs 0 + (b.players.length + j - rs 0)) % b.players.length := by rw [hkmod, hc]
      have hmeq : k % b.players.length
          = (b.players.length + j - rs 0) % b.players.length :=
        Nat.ModEq.add_left_cancel' (rs 0) hcong
      rw [Nat.mod_eq_of_lt hk, Nat.mod_eq_of_lt (by omega)] at hmeq
      exact hmeq

theorem togglePlayerTurn_spec_witness :
    (togglePlayerTurn 1 toggleBoard).playerTurn = some 1
    ∧ (togglePlayerTurn 0 (togglePlayerTurn 1 toggleBoard)).playerTurn = some 0 := by
  have h := togglePlayerTurn_spec toggleBoard (by decide)
  have h2 := togglePlayerTurn_spec (togglePlayerTurn 1 toggleBoard) (by decide)
  exact ⟨h.1 rfl 1 (by decide), h2.2.1 1 0 (h.1 rfl 1 (by decide)) (by decide)⟩

/-! ### compareNextTurn -/

/-- C6: among two candidates whose numbers are distinct from each other and
from the bot's, `_compareNextTurn` returns the one that moves sooner in the
cyclic turn order just after the bot (the smaller (number - botNumber) mod
playerCount); and whenever the second candidate's number equals the bot's own
number, the special case returns the first candidate. -/
theorem compareNextTurn_spec (T botNumber : Int) (p1 p2 : Player)
    (h11 : 1 ≤ p1.number) (h12 : p1.number ≤ T)
    (h21 : 1 ≤ p2.number) (h22 : p2.number ≤ T)
    (hb1 : 1 ≤ botNumber) (hb2 : botNumber ≤ T)
    (hpp : p1.number ≠ p2.number) (h1b : p1.number ≠ botNumber)
    (h2b : p2.number ≠ botNumber) :
    compareNextTurn botNumber p1 p2
      = (if (p1.number - botNumber) % T < (p2.number - botNumber) % T then p1 else p2)
    ∧ ∀ q1 q2 : Player, q2.number = botNumber → compareNextTurn botNumber q1 q2 = q1 := by
  constructor
  · have key : ∀ x : Int, 1 ≤ x → x ≤ T → x ≠ botNumber →
        (x - botNumber) % T = if botNumber < x then x - botNumber else x - botNumber + T := by
      intro x hx1 hx2 hxb
      by_cases h : botNumber < x
      · rw [if_pos h]
        exact Int.emod_eq_of_lt (by omega) (by omega)
      · rw [if_neg h]
        have h5 : (x - botNumber) % T = (x - botNumber + T * 1) % T :=
          (Int.add_mul_emod_self_left (x - botNumber) T 1).symm
        rw [h5, mul_one]
        exact Int.emod_eq_of_lt (by omega) (by omega)
    rw [key p1.number h11 h12 h1b, key p2.number h21 h22 h2b]
    simp only [compareNextTurn, nextTurnFavorsFirst]
    split_ifs <;> first | rfl | omega
  · intro q1 q2 hq
    simp only [compareNextTurn]
    rw [if_pos]
    right; right; right
    exact hq.symm

theorem compareNextTurn_spec_witness :
    compareNextTurn 2 playerOneX playerThreeZ = playerThreeZ
    ∧ compareNextTurn 2 playerOneX botTwoO = playerOneX := by
  have h := compareNextTurn_spec 3 2 playerOneX playerThreeZ (by decide) (by decide)
    (by decide) (by decide) (by decide) (by decide) (by decide) (by decide) (by decide)
  refine ⟨?_, h.2 playerOneX botTwoO rfl⟩
  rw [h.1]
  decide

/-! ### Bot cell selection scenario -/

/-- C2: in the 3x3 scenario with opponent X on cells 0 and 1 (one move away
from connecting at cell 2) and the bot playing O with nothing of its own to
build, the bot selects cell 2 — the urgent block — whatever the random
fallback draw would have been. -/
theorem bot_selects_blocking_cell :
    ∀ randomPick : Nat, requireCellSelection scenarioBoard 2 "O" randomPick = 2 :=
  fun _ => rfl

/-! ### Chain counting: bridging the do-while loop and the run length -/

lemma stop_iff (N r c : Int) (g : Int → Int → String) (m : String) :
    (r < 0 ∨ N ≤ r ∨ c < 0 ∨ N ≤ c ∨ g r c ≠ m)
      ↔ ¬(0 ≤ r ∧ r < N ∧ 0 ≤ c ∧ c < N ∧ g r c = m) := by
  constructor
  · rintro (h | h | h | h | h) ⟨h1, h2, h3, h4, h5⟩
    · omega
    · omega
    · omega
    · omega
    · exact h h5
  · intro h
    by_contra hcon
    push_neg at hcon
    exact h ⟨by omega, by omega, by omega, by omega, hcon.2.2.2.2⟩

lemma chainGo_eq_runLength (N : Int) (g : Int → Int → String) (m : String)
    (deltaRow deltaColumn maxChain : Int) :
    ∀ (F fuelC : Nat) (row column : Int) (chain : Nat),
      runLengthAux N g m deltaRow deltaColumn F row column < F →
      runLengthAux N g m deltaRow deltaColumn F row column < fuelC →
      (chain : Int) + runLengthAux N g m deltaRow deltaColumn F row column ≤ maxChain →
      chainGo N g m deltaRow deltaColumn maxChain fuelC row column chain
        = chain + runLengthAux N g m deltaRow deltaColumn F row column := by
  intro F
  induction F with
  | zero =>
    intro fuelC row column chain hF hfc hmax
    omega
  | succ F ih =>
    intro fuelC row column chain hF hfc hmax
    by_cases hstep : 0 ≤ row + deltaRow ∧ row + deltaRow < N ∧ 0 ≤ column + deltaColumn
        ∧ column + deltaColumn < N ∧ g (row + deltaRow) (column + deltaColumn) = m
    · have hrun : runLengthAux N g m deltaRow deltaColumn (F + 1) row column
          = runLengthAux N g m deltaRow deltaColumn F
              (row + deltaRow) (column + deltaColumn) + 1 := by
        simp only [runLengthAux]
        rw [if_pos hstep]
      rw [hrun] at hF hfc hmax ⊢
      cases fuelC with
      | zero => omega
      | succ fc =>
        simp only [chainGo]
        rw [if_neg (fun hcond =>
          (stop_iff N (row + deltaRow) (column + deltaColumn) g m).mp hcond hstep)]
        by_cases hcap : (chain : Int) + 1 < maxChain
        · rw [if_pos hcap]
          have hrec := ih fc (row + deltaRow) (column + deltaColumn) (chain + 1)
            (by omega) (by omega) (by push_cast at hmax ⊢; omega)
          rw [hrec]
          omega
        · rw [if_neg hcap]
          have hz : runLengthAux N g m deltaRow deltaColumn F
              (row + deltaRow) (column + deltaColumn) = 0 := by
            push_cast at hmax
            omega
          omega
    · have hrun : runLengthAux N g m deltaRow deltaColumn (F + 1) row column = 0 := by
        simp only [runLengthAux]
        rw [if_neg hstep]
      rw [hrun] at hfc ⊢
      cases fuelC with
      | zero => omega
      | succ fc =>
        simp only [chainGo]
        rw [if_pos ((stop_iff N (row + deltaRow) (column + deltaColumn) g m).mpr hstep)]
        omega

lemma runLengthAux_bound_down (N : Int) (g : Int → Int → String) (m : String)
    (deltaColumn : Int) :
    ∀ (F : Nat) (row column : Int),
      (runLengthAux N g m 1 deltaColumn F row column : Int) ≤ N - 1 - row
        ∨ runLengthAux N g m 1 deltaColumn F row column = 0 := by
  intro F
  induction F with
  | zero => intro row column; right; rfl
  | succ F ih =>
    intro row column
    by_cases hstep : 0 ≤ row + 1 ∧ row + 1 < N ∧ 0 ≤ column + deltaColumn
        ∧ column + deltaColumn < N ∧ g (row + 1) (column + deltaColumn) = m
    · left
      have hrun : runLengthAux N g m 1 deltaColumn (F + 1) row column
          = runLengthAux N g m 1 deltaColumn F (row + 1) (column + deltaColumn) + 1 := by
        simp only [runLengthAux]
        rw [if_pos hstep]
      rw [hrun]
      rcases ih (row + 1) (column + deltaColumn) with h | h
      · push_cast
        omega
      · rw [h]
        push_cast
        omega
    · right
      simp only [runLengthAux]
      rw [if_neg hstep]

lemma runLengthAux_bound_up (N : Int) (g : Int → Int → String) (m : String)
    (deltaColumn : Int) :
    ∀ (F : Nat) (row column : Int),
      (runLengthAux N g m (-1) deltaColumn F row column : Int) ≤ row
        ∨ runLengthAux N g m (-1) deltaColumn F row column = 0 := by
  intro F
  induction F with
  | zero => intro row column; right; rfl
  | succ F ih =>
    intro row column
    by_cases hstep : 0 ≤ row + -1 ∧ row + -1 < N ∧ 0 ≤ column + deltaColumn
        ∧ column + deltaColumn < N ∧ g (row + -1) (column + deltaColumn) = m
    · left
      have hrun : runLengthAux N g m (-1) deltaColumn (F + 1) row column
          = runLengthAux N g m (-1) deltaColumn F (row + -1) (column + deltaColumn) + 1 := by
        simp only [runLengthAux]
        rw [if_pos hstep]
      rw [hrun]
      rcases ih (row + -1) (column + deltaColumn) with h | h
      · push_cast
        omega
      · rw [h]
        push_cast
        omega
    · right
      simp only [runLengthAux]
      rw [if_neg hstep]

lemma runLengthAux_bound_right (N : Int) (g : Int → Int → String) (m : String)
    (deltaRow : Int) :
    ∀ (F : Nat) (row column : Int),
      (runLengthAux N g m deltaRow 1 F row column : Int) ≤ N - 1 - column
        ∨ runLengthAux N g m deltaRow 1 F row column = 0 := by
  intro F
  induction F with
  | zero => intro row column; right; rfl
  | succ F ih =>
    intro row column
    by_cases hstep : 0 ≤ row + deltaRow ∧ row + deltaRow < N ∧ 0 ≤ column + 1
        ∧ column + 1 < N ∧ g (row + deltaRow) (column + 1) = m
    · left
      have hrun : runLengthAux N g m deltaRow 1 (F + 1) row column
          = runLengthAux N g m deltaRow 1 F (row + deltaRow) (column + 1) + 1 := by
        simp only [runLengthAux]
        rw [if_pos hstep]
      rw [hrun]
      rcases ih (row + deltaRow) (column + 1) with h | h
      · push_cast
        omega
      · rw [h]
        push_cast
        omega
    · right
      simp only [runLengthAux]
      rw [if_neg hstep]

lemma runLengthAux_bound_left (N : Int) (g : Int → Int → String) (m : String)
    (deltaRow : Int) :
    ∀ (F : Nat) (row column : Int),
      (runLengthAux N g m deltaRow (-1) F row column : Int) ≤ column
        ∨ runLengthAux N g m deltaRow (-1) F row column = 0 := by
  intro F
  induction F with
  | zero => intro row column; right; rfl
  | succ F ih =>
    intro row column
    by_cases hstep : 0 ≤ row + deltaRow ∧ row + deltaRow < N ∧ 0 ≤ column + -1
        ∧ column + -1 < N ∧ g (row + deltaRow) (column + -1) = m
    · left
      have hrun : runLengthAux N g m deltaRow (-1) (F + 1) row column
          = runLengthAux N g m deltaRow (-1) F (row + deltaRow) (column + -1) + 1 := by
        simp only [runLengthAux]
        rw [if_pos hstep]
      rw [hrun]
      rcases ih (row + deltaRow) (column + -1) with h | h
      · push_cast
        omega
      · rw [h]
        push_cast
        omega
    · right
      simp only [runLengthAux]
      rw [if_neg hstep]

lemma countChain_eq_runLength (N : Int) (g : Int → Int → String) (m : String)
    (row column deltaRow deltaColumn : Int) (hin : inBounds N row column)
    (hN : N ≤ INTMAX)
    (hd : deltaRow = 1 ∨ deltaRow = -1 ∨ deltaColumn = 1 ∨ deltaColumn = -1) :
    countChainByDirection N g row column deltaRow deltaColumn m INTMAX
      = runLength N g m deltaRow deltaColumn row column := by
  obtain ⟨h1, h2, h3, h4⟩ := hin
  have hrun : runLengthAux N g m deltaRow deltaColumn N.toNat row column < N.toNat := by
    rcases hd with rfl | rfl | rfl | rfl
    · rcases runLengthAux_bound_down N g m deltaColumn N.toNat row column with h | h
      · omega
      · omega
    · rcases runLengthAux_bound_up N g m deltaColumn N.toNat row column with h | h
      · omega
      · omega
    · rcases runLengthAux_bound_right N g m deltaRow N.toNat row column with h | h
      · omega
      · omega
    · rcases runLengthAux_bound_left N g m deltaRow N.toNat row column with h | h
      · omega
      · omega
  have hmain := chainGo_eq_runLength N g m deltaRow deltaColumn INTMAX
    N.toNat (INTMAX.toNat + 1) row column 0 hrun (by omega) (by push_cast; omega)
  simpa [countChainByDirection, runLength] using hmain

lemma runLength_eq_zero (N : Int) (g : Int → Int → String) (m : String)
    (deltaRow deltaColumn row column : Int)
    (h : ¬(inBounds N (row + deltaRow) (column + deltaColumn)
        ∧ g (row + deltaRow) (column + deltaColumn) = m)) :
    runLength N g m deltaRow deltaColumn row column = 0 := by
  have hne : ¬(0 ≤ row + deltaRow ∧ row + deltaRow < N ∧ 0 ≤ column + deltaColumn
      ∧ column + deltaColumn < N ∧ g (row + deltaRow) (column + deltaColumn) = m) := by
    intro hcon
    exact h ⟨⟨hcon.1, hcon.2.1, hcon.2.2.1, hcon.2.2.2.1⟩, hcon.2.2.2.2⟩
  rw [runLength]
  cases hF : N.toNat with
  | zero => rfl
  | succ F =>
    simp only [runLengthAux]
    rw [if_neg hne]

/-- C1: for every grid, in-bounds cell and marker, `findConnectedCell` (with its
default unbounded `maxChain`) computes the four axis-pair sums of the two
opposite directional run lengths, and its `totalConnected` is the sum over the
four axis-pairs of (run + 1) when the summed run length is at least 2 and 0
otherwise; in particular an isolated marker with no matching neighbour on any
of the four axes has `totalConnected = 0`. (The hypothesis N <= INT_MAX always
holds for the C++ `int` grid size.) -/
theorem findConnectedCell_spec (N : Int) (g : Int → Int → String) (row column : Int)
    (m : String) (hin : inBounds N row column) (hN : N ≤ INTMAX) :
    findConnectedCell N g row column m =
      { row := row
        column := column
        verticalChain := runLength N g m (-1) 0 row column + runLength N g m 1 0 row column
        horizontalChain := runLength N g m 0 (-1) row column + runLength N g m 0 1 row column
        diagonalLeftChain :=
          runLength N g m (-1) (-1) row column + runLength N g m 1 1 row column
        diagonalRightChain :=
          runLength N g m (-1) 1 row column + runLength N g m 1 (-1) row column
        totalConnected :=
          (if 2 ≤ runLength N g m (-1) 0 row column + runLength N g m 1 0 row column then
            runLength N g m (-1) 0 row column + runLength N g m 1 0 row column + 1 else 0)
          + (if 2 ≤ runLength N g m 0 (-1) row column + runLength N g m 0 1 row column then
            runLength N g m 0 (-1) row column + runLength N g m 0 1 row column + 1 else 0)
          + (if 2 ≤ runLength N g m (-1) (-1) row column + runLength N g m 1 1 row column then
            runLength N g m (-1) (-1) row column + runLength N g m 1 1 row column + 1 else 0)
          + (if 2 ≤ runLength N g m (-1) 1 row column + runLength N g m 1 (-1) row column then
            runLength N g m (-1) 1 row column + runLength N g m 1 (-1) row column + 1
            else 0) }
    ∧ ((∀ deltaRow deltaColumn : Int,
          (deltaRow = -1 ∨ deltaRow = 0 ∨ deltaRow = 1) →
          (deltaColumn = -1 ∨ deltaColumn = 0 ∨ deltaColumn = 1) →
          ¬(deltaRow = 0 ∧ deltaColumn = 0) →
          ¬(inBounds N (row + deltaRow) (column + deltaColumn)
            ∧ g (row + deltaRow) (column + deltaColumn) = m)) →
        (findConnectedCell N g row column m).totalConnected = 0) := by
  have e1 := countChain_eq_runLength N g m row column (-1) 0 hin hN
    (Or.inr (Or.inl rfl))
  have e2 := countChain_eq_runLength N g m row column 1 0 hin hN (Or.inl rfl)
  have e3 := countChain_eq_runLength N g m row column 0 (-1) hin hN
    (Or.inr (Or.inr (Or.inr rfl)))
  have e4 := countChain_eq_runLength N g m row column 0 1 hin hN
    (Or.inr (Or.inr (Or.inl rfl)))
  have e5 := countChain_eq_runLength N g m row column (-1) (-1) hin hN
    (Or.inr (Or.inl rfl))
  have e6 := countChain_eq_runLength N g m row column 1 1 hin hN (Or.inl rfl)
  have e7 := countChain_eq_runLength N g m row column (-1) 1 hin hN
    (Or.inr (Or.inl rfl))
  have e8 := countChain_eq_runLength N g m row column 1 (-1) hin hN (Or.inl rfl)
  have main : findConnectedCell N g row column m =
      { row := row
        column := column
        verticalChain := runLength N g m (-1) 0 row column + runLength N g m 1 0 row column
        horizontalChain := runLength N g m 0 (-1) row column + runLength N g m 0 1 row column
        diagonalLeftChain :=
          runLength N g m (-1) (-1) row column + runLength N g m 1 1 row column
        diagonalRightChain :=
          runLength N g m (-1) 1 row column + runLength N g m 1 (-1) row column
        totalConnected :=
          (if 2 ≤ runLength N g m (-1) 0 row column + runLength N g m 1 0 row column then
            runLength N g m (-1) 0 row column + runLength N g m 1 0 row column + 1 else 0)
          + (if 2 ≤ runLength N g m 0 (-1) row column + runLength N g m 0 1 row column then
            runLength N g m 0 (-1) row column + runLength N g m 0 1 row column + 1 else 0)
          + (if 2 ≤ runLength N g m (-1) (-1) row column + runLength N g m 1 1 row column then
            runLength N g m (-1) (-1) row column + runLength N g m 1 1 row column + 1 else 0)
          + (if 2 ≤ runLength N g m (-1) 1 row column + runLength N g m 1 (-1) row column then
            runLength N g m (-1) 1 row column + runLength N g m 1 (-1) row column + 1
            else 0) } := by
    simp only [findConnectedCell, countCurrentTopChain, countCurrentBottomChain,
      countCurrentLeftChain, countCurrentRightChain, countTopLeftChain, countTopRightChain,
      countBottomLeftChain, countBottomRightChain]
    rw [e1, e2, e3, e4, e5, e6, e7, e8]
  refine ⟨main, fun hiso => ?_⟩
  rw [main]
  rw [runLength_eq_zero N g m (-1) 0 row column
      (hiso (-1) 0 (Or.inl rfl) (Or.inr (Or.inl rfl)) (by omega)),
    runLength_eq_zero N g m 1 0 row column
      (hiso 1 0 (Or.inr (Or.inr rfl)) (Or.inr (Or.inl rfl)) (by omega)),
    runLength_eq_zero N g m 0 (-1) row column
      (hiso 0 (-1) (Or.inr (Or.inl rfl)) (Or.inl rfl) (by omega)),
    runLength_eq_zero N g m 0 1 row column
      (hiso 0 1 (Or.inr (Or.inl rfl)) (Or.inr (Or.inr rfl)) (by omega)),
    runLength_eq_zero N g m (-1) (-1) row column
      (hiso (-1) (-1) (Or.inl rfl) (Or.inl rfl) (by omega)),
    runLength_eq_zero N g m 1 1 row column
      (hiso 1 1 (Or.inr (Or.inr rfl)) (Or.inr (Or.inr rfl)) (by omega)),
    runLength_eq_zero N g m (-1) 1 row column
      (hiso (-1) 1 (Or.inl rfl) (Or.inr (Or.inr rfl)) (by omega)),
    runLength_eq_zero N g m 1 (-1) row column
      (hiso 1 (-1) (Or.inr (Or.inr rfl)) (Or.inl rfl) (by omega))]
  rfl

theorem findConnectedCell_spec_witness :
    findConnectedCell 3 exGridXX 0 2 "X" =
      { row := 0, column := 2, verticalChain := 0, horizontalChain := 2,
        diagonalLeftChain := 0, diagonalRightChain := 0, totalConnected := 3 } := by
  have h := (findConnectedCell_spec 3 exGridXX 0 2 "X" (by decide) (by decide)).1
  rw [h]
  decide

/-! ### Invariants of the directional counting loop -/

lemma chainGo_ge (N : Int) (g : Int → Int → String) (m : String)
    (deltaRow deltaColumn maxChain : Int) :
    ∀ (fuel : Nat) (row column : Int) (chain : Nat),
      chain ≤ chainGo N g m deltaRow deltaColumn maxChain fuel row column chain := by
  intro fuel
  induction fuel with
  | zero => intro row column chain; exact le_refl chain
  | succ fuel ih =>
    intro row column chain
    simp only [chainGo]
    split_ifs with h1 h2
    · exact le_refl chain
    · exact le_trans (Nat.le_succ chain) (ih _ _ _)
    · exact Nat.le_succ chain

lemma chainGo_le (N : Int) (g : Int → Int → String) (m : String)
    (deltaRow deltaColumn maxChain : Int) :
    ∀ (fuel : Nat) (row column : Int) (chain : Nat), (chain : Int) < maxChain →
      (chainGo N g m deltaRow deltaColumn maxChain fuel row column chain : Int) ≤ maxChain := by
  intro fuel
  induction fuel with
  | zero => intro row column chain h; exact h.le
  | succ fuel ih =>
    intro row column chain h
    simp only [chainGo]
    split_ifs with h1 h2
    · exact h.le
    · exact ih _ _ _ (by push_cast; push_cast at h2; omega)
    · push_cast
      omega

lemma chainGo_matches (N : Int) (g : Int → Int → String) (m : String)
    (deltaRow deltaColumn maxChain : Int) :
    ∀ (fuel : Nat) (row column : Int) (chain : Nat) (i : Nat),
      1 ≤ i → i ≤ chainGo N g m deltaRow deltaColumn maxChain fuel row column chain - chain →
      0 ≤ row + (i : Int) * deltaRow ∧ row + (i : Int) * deltaRow < N
        ∧ 0 ≤ column + (i : Int) * deltaColumn ∧ column + (i : Int) * deltaColumn < N
        ∧ g (row + (i : Int) * deltaRow) (column + (i : Int) * deltaColumn) = m := by
  intro fuel
  induction fuel with
  | zero =>
    intro row column chain i h1 h2
    simp only [chainGo] at h2
    omega
  | succ fuel ih =>
    intro row column chain i h1 h2
    simp only [chainGo] at h2
    split_ifs at h2 with hstop hcap
    · omega
    · have hm1 : 0 ≤ row + deltaRow ∧ row + deltaRow < N ∧ 0 ≤ column + deltaColumn
          ∧ column + deltaColumn < N ∧ g (row + deltaRow) (column + deltaColumn) = m := by
        by_contra hcon
        exact hstop ((stop_iff N (row + deltaRow) (column + deltaColumn) g m).mpr hcon)
      rcases Nat.eq_or_lt_of_le h1 with h | hi2
      · rw [← h]
        simpa using hm1
      · have hge := chainGo_ge N g m deltaRow deltaColumn maxChain fuel
          (row + deltaRow) (column + deltaColumn) (chain + 1)
        have h3 := ih (row + deltaRow) (column + deltaColumn) (chain + 1) (i - 1)
          (by omega) (by omega)
        have hco : ((i - 1 : Nat) : Int) = (i : Int) - 1 := by omega
        have h4 : row + deltaRow + ((i - 1 : Nat) : Int) * deltaRow
            = row + (i : Int) * deltaRow := by
          rw [hco]
          ring
        have h5 : column + deltaColumn + ((i - 1 : Nat) : Int) * deltaColumn
            = column + (i : Int) * deltaColumn := by
          rw [hco]
          ring
        rw [h4, h5] at h3
        exact h3
    · have hm1 : 0 ≤ row + deltaRow ∧ row + deltaRow < N ∧ 0 ≤ column + deltaColumn
          ∧ column + deltaColumn < N ∧ g (row + deltaRow) (column + deltaColumn) = m := by
        by_contra hcon
        exact hstop ((stop_iff N (row + deltaRow) (column + deltaColumn) g m).mpr hcon)
      have h6 : i = 1 := by omega
      rw [h6]
      simpa using hm1

lemma chainGo_stop (N : Int) (g : Int → Int → String) (m : String)
    (deltaRow deltaColumn maxChain : Int) :
    ∀ (fuel : Nat) (row column : Int) (chain : Nat),
      maxChain ≤ (chain : Int) + fuel → (chain : Int) < maxChain →
      ∀ res : Nat, res = chainGo N g m deltaRow deltaColumn maxChain fuel row column chain →
      ((res : Int) = maxChain
        ∨ ¬(0 ≤ row + (((res - chain : Nat) : Int) + 1) * deltaRow
            ∧ row + (((res - chain : Nat) : Int) + 1) * deltaRow < N
            ∧ 0 ≤ column + (((res - chain : Nat) : Int) + 1) * deltaColumn
            ∧ column + (((res - chain : Nat) : Int) + 1) * deltaColumn < N
            ∧ g (row + (((res - chain : Nat) : Int) + 1) * deltaRow)
                (column + (((res - chain : Nat) : Int) + 1) * deltaColumn) = m)) := by
  intro fuel
  induction fuel with
  | zero =>
    intro row column chain hfuel hch res hres
    exact absurd hfuel (by push_cast; omega)
  | succ fuel ih =>
    intro row column chain hfuel hch res hres
    simp only [chainGo] at hres
    split_ifs at hres with hstop hcap
    · right
      intro hcon
      have e : (((res - chain : Nat) : Int) + 1) = 1 := by omega
      rw [e, one_mul, one_mul] at hcon
      exact (stop_iff N (row + deltaRow) (column + deltaColumn) g m).mp hstop hcon
    · have hge := chainGo_ge N g m deltaRow deltaColumn maxChain fuel
        (row + deltaRow) (column + deltaColumn) (chain + 1)
      rw [← hres] at hge
      rcases ih (row + deltaRow) (column + deltaColumn) (chain + 1)
          (by push_cast at hfuel ⊢; omega) (by push_cast; omega) res hres with h | h
      · left
        exact h
      · right
        intro hcon
        apply h
        have e5 : ((res - (chain + 1) : Nat) : Int) + 1 = ((res - chain : Nat) : Int) := by
          omega
        have e6 : row + deltaRow + (((res - (chain + 1) : Nat) : Int) + 1) * deltaRow
            = row + (((res - chain : Nat) : Int) + 1) * deltaRow := by
          calc row + deltaRow + (((res - (chain + 1) : Nat) : Int) + 1) * deltaRow
              = row + ((((res - (chain + 1) : Nat) : Int) + 1) + 1) * deltaRow := by ring
            _ = row + (((res - chain : Nat) : Int) + 1) * deltaRow := by rw [e5]
        have e7 : column + deltaColumn
              + (((res - (chain + 1) : Nat) : Int) + 1) * deltaColumn
            = column + (((res - chain : Nat) : Int) + 1) * deltaColumn := by
          calc column + deltaColumn + (((res - (chain + 1) : Nat) : Int) + 1) * deltaColumn
              = column + ((((res - (chain + 1) : Nat) : Int) + 1) + 1) * deltaColumn := by
                ring
            _ = column + (((res - chain : Nat) : Int) + 1) * deltaColumn := by rw [e5]
        rw [e6, e7]
        exact hcon
    · left
      rw [hres]
      push_cast
      omega

/-- C4 (amended): for every grid, start cell, direction, marker and every
maxChain >= 1 (as at every call site; the C++ do-while would return 1, not 0,
for maxChain <= 0 with a matching first cell), `_countChainByDirection` returns
the number of consecutive cells equal to the marker starting one step away in
the given direction, stopping at a grid boundary, at the first non-matching
cell, or when maxChain is reached: the result is at most maxChain, every
counted step lies in bounds and matches, and either the cap was reached or the
next step fails. The embedding is a pure function of the grid, which it never
modifies. -/
theorem countChain_characterization (N : Int) (g : Int → Int → String)
    (row column deltaRow deltaColumn : Int) (m : String) (maxChain : Int)
    (hmax : 1 ≤ maxChain) :
    ((countChainByDirection N g row column deltaRow deltaColumn m maxChain : Int) ≤ maxChain)
    ∧ (∀ i : Nat, 1 ≤ i →
        i ≤ countChainByDirection N g row column deltaRow deltaColumn m maxChain →
        inBounds N (row + (i : Int) * deltaRow) (column + (i : Int) * deltaColumn)
          ∧ g (row + (i : Int) * deltaRow) (column + (i : Int) * deltaColumn) = m)
    ∧ ((countChainByDirection N g row column deltaRow deltaColumn m maxChain : Int) = maxChain
        ∨ ¬(inBounds N
              (row + ((countChainByDirection N g row column deltaRow deltaColumn m maxChain
                : Int) + 1) * deltaRow)
              (column + ((countChainByDirection N g row column deltaRow deltaColumn m maxChain
                : Int) + 1) * deltaColumn)
            ∧ g (row + ((countChainByDirection N g row column deltaRow deltaColumn m maxChain
                : Int) + 1) * deltaRow)
                (column + ((countChainByDirection N g row column deltaRow deltaColumn m
                  maxChain : Int) + 1) * deltaColumn) = m)) := by
  refine ⟨?_, ?_, ?_⟩
  · exact chainGo_le N g m deltaRow deltaColumn maxChain (maxChain.toNat + 1) row column 0
      (by omega)
  · intro i h1 h2
    have h := chainGo_matches N g m deltaRow deltaColumn maxChain (maxChain.toNat + 1)
      row column 0 i h1 (by simpa using h2)
    exact ⟨⟨h.1, h.2.1, h.2.2.1, h.2.2.2.1⟩, h.2.2.2.2⟩
  · have h := chainGo_stop N g m deltaRow deltaColumn maxChain (maxChain.toNat + 1)
      row column 0 (by push_cast; omega) (by push_cast; omega)
      (countChainByDirection N g row column deltaRow deltaColumn m maxChain) rfl
    rcases h with h | h
    · left
      exact h
    · right
      intro hcon
      apply h
      simp only [Nat.sub_zero]
      exact ⟨hcon.1.1, hcon.1.2.1, hcon.1.2.2.1, hcon.1.2.2.2, hcon.2⟩

theorem countChain_characterization_witness :
    ((countChainByDirection 3 exGridColumn 0 0 1 0 "x" 1 : Int) ≤ 1)
    ∧ countChainByDirection 3 exGridColumn 0 0 1 0 "x" 1 = 1 :=
  ⟨(countChain_characterization 3 exGridColumn 0 0 1 0 "x" 1 (by decide)).1, by decide⟩

/-- C4 counterexample: with `maxChain = 0` the C++ do-while body still runs
once, so with a matching first cell the function returns 1, which exceeds
maxChain — refuting the claim that the result never exceeds maxChain for every
maxChain value. -/
theorem countChain_exceeds_maxChain :
    countChainByDirection 3 exGridColumn 0 0 1 0 "x" 0 = 1
    ∧ ¬((countChainByDirection 3 exGridColumn 0 0 1 0 "x" 0 : Int) ≤ 0) :=
  ⟨by decide, by decide⟩

end TicTacToe
